import Mathlib

/-!
Verification of the wave-equation steppers in `wave_pack/wave_class.py`
(`Wave1D`, `Wave2D`).  Fields are embedded as functions `Fin n → ℚ`
(resp. `Fin m → Fin n → ℚ` in 2D), numpy's floating-point arithmetic
being idealized as exact rational arithmetic.  `np.roll` becomes
modular index shifting, `bound_standing` becomes a pointwise boundary
mask, and the `iteration` generator becomes iteration of a pure
sub-step function on the stepper state.
-/

/-- Length of `np.arange(0, stop, step)`: `ceil(stop / step)` samples,
clamped at zero. -/
def arangeLen (stop step : ℚ) : ℕ := (Int.toNat ⌈stop / step⌉)

/-- Number of grid samples of `Wave1D`: `np.arange(0, L + dx, dx)`. -/
def wave1d_n (L dx : ℚ) : ℕ := arangeLen (L + dx) dx

/-- The coordinate grid `self.x` of `Wave1D`: sample `i` sits at `i * dx`. -/
def wave1d_x (L dx : ℚ) : Fin (wave1d_n L dx) → ℚ := fun i => (i.val : ℚ) * dx

/-- `np.roll(a, 1)`: entry `i` reads `a[(i - 1) mod n]`, written with the
nonnegative representative `(i + (n-1)) mod n`. -/
def roll_p1 {n : ℕ} (a : Fin n → ℚ) : Fin n → ℚ :=
  fun i => a ⟨(i.val + (n - 1)) % n, Nat.mod_lt _ i.pos⟩

/-- `np.roll(a, -1)`: entry `i` reads `a[(i + 1) mod n]`. -/
def roll_m1 {n : ℕ} (a : Fin n → ℚ) : Fin n → ℚ :=
  fun i => a ⟨(i.val + 1) % n, Nat.mod_lt _ i.pos⟩

/-- `Wave1D.bound_standing`: `grid[0] = 0; grid[-1] = 0`. -/
def bound_standing {n : ℕ} (a : Fin n → ℚ) : Fin n → ℚ :=
  fun i => if i.val = 0 ∨ i.val = n - 1 then 0 else a i

/-- The mutable state of a `Wave1D` instance: the CFL coefficient
`alpha2`, the time step `dt`, the clock `time`, and the three retained
time levels `u_tim1` (t−1), `u_ti` (t), `u_tip1` (t+1 scratch). -/
structure Wave1DState (n : ℕ) where
  alpha2 : ℚ
  dt : ℚ
  time : ℚ
  u_tim1 : Fin n → ℚ
  u_ti : Fin n → ℚ
  u_tip1 : Fin n → ℚ

/-- `self.alpha2 = (c * dt / dx)**2`. -/
def alpha2_1d (c dt dx : ℚ) : ℚ := (c * dt / dx) ^ 2

/-- The state `Wave1D.__init__` builds once the stability check passed.
`u0` and `ut0` are the initial-position and initial-velocity fields
already sampled on the grid (`u_x0(self.x, L)` and `ut_x0(self.x)`). -/
def wave1d_mk (n : ℕ) (u0 ut0 : Fin n → ℚ) (dt dx c : ℚ) : Wave1DState n :=
  let alpha2 := alpha2_1d c dt dx
  let prev := bound_standing u0
  let curr := bound_standing (fun i =>
    dt * ut0 i + (1 - alpha2) * prev i
      + (1 / 2 : ℚ) * alpha2 * (roll_p1 prev i + roll_m1 prev i))
  { alpha2 := alpha2
    dt := dt
    time := 0 + dt
    u_tim1 := prev
    u_ti := curr
    u_tip1 := fun _ => 0 }

/-- `Wave1D.__init__` with its von Neumann stability gate: construction
aborts (`sys.exit`) when `alpha2 > 1`. -/
def wave1d_init (n : ℕ) (u0 ut0 : Fin n → ℚ) (dt dx c : ℚ) :
    Option (Wave1DState n) :=
  if alpha2_1d c dt dx > 1 then none else some (wave1d_mk n u0 ut0 dt dx c)

/-- One pass of the inner loop body of `Wave1D.iteration`: compute
`u_tip1` by the central-difference stencil, zero its boundaries, advance
the clock, then rotate `u_tim1 ← u_ti`, `u_ti ← u_tip1` by value. -/
def wave1d_substep {n : ℕ} (s : Wave1DState n) : Wave1DState n :=
  let next := bound_standing (fun i =>
    -s.u_tim1 i + 2 * (1 - s.alpha2) * s.u_ti i
      + s.alpha2 * (roll_p1 s.u_ti i + roll_m1 s.u_ti i))
  { alpha2 := s.alpha2
    dt := s.dt
    time := s.time + s.dt
    u_tim1 := s.u_ti
    u_ti := next
    u_tip1 := next }

/-- The pair `(u_ti, time)` the generator `Wave1D.iteration(steps)` has
yielded after `k` pulls: the instance has then performed `steps * k`
sub-steps. -/
def wave1d_yield {n : ℕ} (s : Wave1DState n) (steps k : ℕ) :
    (Fin n → ℚ) × ℚ :=
  ((wave1d_substep^[steps * k] s).u_ti, (wave1d_substep^[steps * k] s).time)

/-- Number of x-axis samples of `Wave2D`: `np.arange(0, Lx + dxy, dxy)`. -/
def wave2d_nx (Lx dxy : ℚ) : ℕ := arangeLen (Lx + dxy) dxy

/-- Number of y-axis samples of `Wave2D`: `np.arange(0, Ly + dxy, dxy)`. -/
def wave2d_ny (Ly dxy : ℚ) : ℕ := arangeLen (Ly + dxy) dxy

/-- `np.roll(a, 1, axis=0)` on a 2D field indexed `[x][y]`. -/
def roll_p1_ax0 {m n : ℕ} (a : Fin m → Fin n → ℚ) : Fin m → Fin n → ℚ :=
  fun i j => a ⟨(i.val + (m - 1)) % m, Nat.mod_lt _ i.pos⟩ j

/-- `np.roll(a, -1, axis=0)` on a 2D field. -/
def roll_m1_ax0 {m n : ℕ} (a : Fin m → Fin n → ℚ) : Fin m → Fin n → ℚ :=
  fun i j => a ⟨(i.val + 1) % m, Nat.mod_lt _ i.pos⟩ j

/-- `np.roll(a, 1, axis=1)` on a 2D field. -/
def roll_p1_ax1 {m n : ℕ} (a : Fin m → Fin n → ℚ) : Fin m → Fin n → ℚ :=
  fun i j => a i ⟨(j.val + (n - 1)) % n, Nat.mod_lt _ j.pos⟩

/-- `np.roll(a, -1, axis=1)` on a 2D field. -/
def roll_m1_ax1 {m n : ℕ} (a : Fin m → Fin n → ℚ) : Fin m → Fin n → ℚ :=
  fun i j => a i ⟨(j.val + 1) % n, Nat.mod_lt _ j.pos⟩

/-- `Wave2D.bound_standing`: zero the first and last row and the first
and last column. -/
def bound_standing2 {m n : ℕ} (a : Fin m → Fin n → ℚ) : Fin m → Fin n → ℚ :=
  fun i j =>
    if i.val = 0 ∨ j.val = 0 ∨ i.val = m - 1 ∨ j.val = n - 1 then 0 else a i j

/-- The mutable state of a `Wave2D` instance (fields indexed `[x][y]`). -/
structure Wave2DState (m n : ℕ) where
  alpha2 : ℚ
  dt : ℚ
  time : ℚ
  u_tim1 : Fin m → Fin n → ℚ
  u_ti : Fin m → Fin n → ℚ
  u_tip1 : Fin m → Fin n → ℚ

/-- `self.alpha2 = (c * dt / dxy)**2`. -/
def alpha2_2d (c dt dxy : ℚ) : ℚ := (c * dt / dxy) ^ 2

/-- The state `Wave2D.__init__` builds once the stability check passed:
`u0 = u_xy0(x, y, Lx, Ly)` and `ut0 = ut_xy0(x, y)` sampled on the grid. -/
def wave2d_mk (m n : ℕ) (u0 ut0 : Fin m → Fin n → ℚ) (dt dxy c : ℚ) :
    Wave2DState m n :=
  let alpha2 := alpha2_2d c dt dxy
  let prev := bound_standing2 u0
  let curr := bound_standing2 (fun i j =>
    dt * ut0 i j + (1 - 2 * alpha2) * prev i j
      + (1 / 2 : ℚ) * alpha2 * (roll_p1_ax0 prev i j + roll_m1_ax0 prev i j
          + roll_p1_ax1 prev i j + roll_m1_ax1 prev i j))
  { alpha2 := alpha2
    dt := dt
    time := 0 + dt
    u_tim1 := prev
    u_ti := curr
    u_tip1 := fun _ _ => 0 }

/-- `Wave2D.__init__` with its stability gate: construction aborts when
`alpha2 > 0.5`. -/
def wave2d_init (m n : ℕ) (u0 ut0 : Fin m → Fin n → ℚ) (dt dxy c : ℚ) :
    Option (Wave2DState m n) :=
  if alpha2_2d c dt dxy > (1 / 2 : ℚ) then none
  else some (wave2d_mk m n u0 ut0 dt dxy c)

/-- One pass of the inner loop body of `Wave2D.iteration`. -/
def wave2d_substep {m n : ℕ} (s : Wave2DState m n) : Wave2DState m n :=
  let next := bound_standing2 (fun i j =>
    -s.u_tim1 i j + 2 * (1 - 2 * s.alpha2) * s.u_ti i j
      + s.alpha2 * (roll_p1_ax0 s.u_ti i j + roll_m1_ax0 s.u_ti i j
          + roll_p1_ax1 s.u_ti i j + roll_m1_ax1 s.u_ti i j))
  { alpha2 := s.alpha2
    dt := s.dt
    time := s.time + s.dt
    u_tim1 := s.u_ti
    u_ti := next
    u_tip1 := next }

/-- The pair `(u_ti, time)` yielded by `Wave2D.iteration(steps)` after
`k` pulls. -/
def wave2d_yield {m n : ℕ} (s : Wave2DState m n) (steps k : ℕ) :
    (Fin m → Fin n → ℚ) × ℚ :=
  ((wave2d_substep^[steps * k] s).u_ti, (wave2d_substep^[steps * k] s).time)

/-! ### Helper lemmas -/

lemma wrap_left_interior {n i : ℕ} (h0 : 0 < i) (h1 : i < n) :
    (i + (n - 1)) % n = i - 1 := by
  have h : i + (n - 1) = (i - 1) + n := by omega
  rw [h, Nat.add_mod_right, Nat.mod_eq_of_lt (by omega)]

lemma wrap_left_zero {n : ℕ} (h : 0 < n) : (0 + (n - 1)) % n = n - 1 := by
  rw [Nat.zero_add, Nat.mod_eq_of_lt (by omega)]

lemma wrap_right_interior {n i : ℕ} (h : i + 1 < n) : (i + 1) % n = i + 1 :=
  Nat.mod_eq_of_lt h

lemma wrap_right_last {n : ℕ} (h : 0 < n) : ((n - 1) + 1) % n = 0 := by
  have h1 : n - 1 + 1 = n := by omega
  rw [h1, Nat.mod_self]

/-- All boundary samples of a 1D field are zero. -/
def Bnd1 {n : ℕ} (a : Fin n → ℚ) : Prop :=
  ∀ i : Fin n, i.val = 0 ∨ i.val = n - 1 → a i = 0

/-- All boundary samples of a 2D field are zero. -/
def Bnd2 {m n : ℕ} (a : Fin m → Fin n → ℚ) : Prop :=
  ∀ (i : Fin m) (j : Fin n),
    i.val = 0 ∨ j.val = 0 ∨ i.val = m - 1 ∨ j.val = n - 1 → a i j = 0

lemma bnd1_bound_standing {n : ℕ} (a : Fin n → ℚ) : Bnd1 (bound_standing a) :=
  fun _ h => if_pos h

lemma bound_standing_interior {n : ℕ} (a : Fin n → ℚ) (i : Fin n)
    (h : ¬(i.val = 0 ∨ i.val = n - 1)) : bound_standing a i = a i := if_neg h

lemma bnd2_bound_standing2 {m n : ℕ} (a : Fin m → Fin n → ℚ) :
    Bnd2 (bound_standing2 a) := fun _ _ h => if_pos h

lemma bound_standing2_interior {m n : ℕ} (a : Fin m → Fin n → ℚ)
    (i : Fin m) (j : Fin n)
    (h : ¬(i.val = 0 ∨ j.val = 0 ∨ i.val = m - 1 ∨ j.val = n - 1)) :
    bound_standing2 a i j = a i j := if_neg h

lemma wave1d_init_eq_some {n : ℕ} (u0 ut0 : Fin n → ℚ) {dt dx c : ℚ}
    (h : ¬ alpha2_1d c dt dx > 1) :
    wave1d_init n u0 ut0 dt dx c = some (wave1d_mk n u0 ut0 dt dx c) := by
  unfold wave1d_init
  exact if_neg h

lemma wave1d_init_some {n : ℕ} {u0 ut0 : Fin n → ℚ} {dt dx c : ℚ}
    {s : Wave1DState n} (h : wave1d_init n u0 ut0 dt dx c = some s) :
    s = wave1d_mk n u0 ut0 dt dx c := by
  unfold wave1d_init at h
  split at h
  · exact absurd h (by simp)
  · exact (Option.some.inj h).symm

lemma wave2d_init_eq_some {m n : ℕ} (u0 ut0 : Fin m → Fin n → ℚ)
    {dt dxy c : ℚ} (h : ¬ alpha2_2d c dt dxy > (1 / 2 : ℚ)) :
    wave2d_init m n u0 ut0 dt dxy c = some (wave2d_mk m n u0 ut0 dt dxy c) := by
  unfold wave2d_init
  exact if_neg h

lemma wave2d_init_some {m n : ℕ} {u0 ut0 : Fin m → Fin n → ℚ} {dt dxy c : ℚ}
    {s : Wave2DState m n} (h : wave2d_init m n u0 ut0 dt dxy c = some s) :
    s = wave2d_mk m n u0 ut0 dt dxy c := by
  unfold wave2d_init at h
  split at h
  · exact absurd h (by simp)
  · exact (Option.some.inj h).symm

lemma wave1d_substep_u_ti {n : ℕ} (s : Wave1DState n) :
    (wave1d_substep s).u_ti = bound_standing (fun i =>
      -s.u_tim1 i + 2 * (1 - s.alpha2) * s.u_ti i
        + s.alpha2 * (roll_p1 s.u_ti i + roll_m1 s.u_ti i)) := rfl

lemma wave2d_substep_u_ti {m n : ℕ} (t : Wave2DState m n) :
    (wave2d_substep t).u_ti = bound_standing2 (fun i j =>
      -t.u_tim1 i j + 2 * (1 - 2 * t.alpha2) * t.u_ti i j
        + t.alpha2 * (roll_p1_ax0 t.u_ti i j + roll_m1_ax0 t.u_ti i j
            + roll_p1_ax1 t.u_ti i j + roll_m1_ax1 t.u_ti i j)) := rfl

lemma wave1d_mk_u_tim1 {n : ℕ} (u0 ut0 : Fin n → ℚ) (dt dx c : ℚ) :
    (wave1d_mk n u0 ut0 dt dx c).u_tim1 = bound_standing u0 := rfl

lemma wave1d_mk_u_ti {n : ℕ} (u0 ut0 : Fin n → ℚ) (dt dx c : ℚ) :
    (wave1d_mk n u0 ut0 dt dx c).u_ti = bound_standing (fun i =>
      dt * ut0 i + (1 - alpha2_1d c dt dx) * bound_standing u0 i
        + (1 / 2 : ℚ) * alpha2_1d c dt dx
          * (roll_p1 (bound_standing u0) i + roll_m1 (bound_standing u0) i)) := rfl

lemma wave2d_mk_u_tim1 {m n : ℕ} (u0 ut0 : Fin m → Fin n → ℚ) (dt dxy c : ℚ) :
    (wave2d_mk m n u0 ut0 dt dxy c).u_tim1 = bound_standing2 u0 := rfl

lemma wave2d_mk_u_ti {m n : ℕ} (u0 ut0 : Fin m → Fin n → ℚ) (dt dxy c : ℚ) :
    (wave2d_mk m n u0 ut0 dt dxy c).u_ti = bound_standing2 (fun i j =>
      dt * ut0 i j + (1 - 2 * alpha2_2d c dt dxy) * bound_standing2 u0 i j
        + (1 / 2 : ℚ) * alpha2_2d c dt dxy
          * (roll_p1_ax0 (bound_standing2 u0) i j + roll_m1_ax0 (bound_standing2 u0) i j
              + roll_p1_ax1 (bound_standing2 u0) i j
              + roll_m1_ax1 (bound_standing2 u0) i j)) := rfl

/-! ### C3: the stability gate -/

/-- C3: construction fails exactly when `alpha2 = (c*dt/dx)^2 > 1` in 1D,
resp. `alpha2 = (c*dt/dxy)^2 > 1/2` in 2D; in particular the 1D
configuration `c=1, dt=1, dx=1/2` (`alpha2 = 4`) is rejected and
`c=1, dt=1/1000, dx=5/1000` (`alpha2 = 1/25`) is accepted; the advance
operation is a total function on constructed states, so no further error
can arise. -/
theorem stability_gate_c3 :
    (∀ (n : ℕ) (u0 ut0 : Fin n → ℚ) (dt dx c : ℚ),
       wave1d_init n u0 ut0 dt dx c = none ↔ alpha2_1d c dt dx > 1)
  ∧ (∀ (m n : ℕ) (u0 ut0 : Fin m → Fin n → ℚ) (dt dxy c : ℚ),
       wave2d_init m n u0 ut0 dt dxy c = none ↔ alpha2_2d c dt dxy > (1/2 : ℚ))
  ∧ alpha2_1d 1 1 (1/2) = 4
  ∧ wave1d_init 3 (fun _ => 0) (fun _ => 0) 1 (1/2) 1 = none
  ∧ alpha2_1d 1 (1/1000) (5/1000) = 1/25
  ∧ (wave1d_init 3 (fun _ => 0) (fun _ => 0) (1/1000) (5/1000) 1).isSome = true := by
  refine ⟨?_, ?_, ?_, ?_, ?_, ?_⟩
  · intro n u0 ut0 dt dx c
    unfold wave1d_init
    split
    · next h => simp [h]
    · next h => simp [h]
  · intro m n u0 ut0 dt dxy c
    unfold wave2d_init
    split
    · next h => simpa using h
    · next h => simpa using not_lt.mp h
  · norm_num [alpha2_1d]
  · unfold wave1d_init
    rw [if_pos (by norm_num [alpha2_1d])]
  · norm_num [alpha2_1d]
  · rw [wave1d_init_eq_some _ _ (by norm_num [alpha2_1d])]
    rfl

/-! ### C1: the advance sub-step -/

/-- Example 1D fields and state used to instantiate theorems with
hypotheses on concrete inputs. -/
def exU1 : Fin 4 → ℚ := fun i => if i.val = 1 then 1 else if i.val = 2 then 2 else 0

def exV1 : Fin 4 → ℚ := fun i => if i.val = 1 then 3 else if i.val = 2 then 5 else 0

def s1ex : Wave1DState 4 :=
  { alpha2 := 1/4, dt := 1/2, time := 7
    u_tim1 := exU1, u_ti := exV1, u_tip1 := fun _ => 0 }

/-- Example 2D field and state: a single bump of height 2 at the center
of a 3×3 grid. -/
def exU2 : Fin 3 → Fin 3 → ℚ := fun i j => if i.val = 1 ∧ j.val = 1 then 2 else 0

def s2ex : Wave2DState 3 3 :=
  { alpha2 := 1/8, dt := 1/4, time := 3
    u_tim1 := exU2, u_ti := exU2, u_tip1 := fun _ _ => 0 }

/-- C1: in every sub-step of `Wave1D.iteration` / `Wave2D.iteration`, the
new field satisfies the central-difference stencil at every interior
index (circular neighbor indexing degenerating to `i−1`/`i+1` there), is
zero on the boundary, the clock advances by `dt`, the three levels
ring-rotate `prev ← curr`, `curr ← next` by value, and after `k` pulls
with `steps ≥ 1` sub-steps per yield the generator has yielded the field
and clock of the state reached after `steps·k` sub-steps. -/
theorem substep_spec_c1 :
    (∀ (n : ℕ) (s : Wave1DState n) (i : Fin n) (h1 : 0 < i.val)
       (h2 : i.val < n - 1),
       (wave1d_substep s).u_ti i =
         -s.u_tim1 i + 2 * (1 - s.alpha2) * s.u_ti i
           + s.alpha2 * (s.u_ti ⟨i.val - 1, by omega⟩ + s.u_ti ⟨i.val + 1, by omega⟩))
  ∧ (∀ (n : ℕ) (s : Wave1DState n) (i : Fin n), i.val = 0 ∨ i.val = n - 1 →
       (wave1d_substep s).u_ti i = 0)
  ∧ (∀ (n : ℕ) (s : Wave1DState n),
       (wave1d_substep s).time = s.time + s.dt
         ∧ (wave1d_substep s).u_tim1 = s.u_ti
         ∧ (wave1d_substep s).u_ti = (wave1d_substep s).u_tip1)
  ∧ (∀ (n : ℕ) (s : Wave1DState n) (steps k : ℕ), 1 ≤ steps →
       wave1d_yield s steps k =
         ((wave1d_substep^[steps * k] s).u_ti,
          (wave1d_substep^[steps * k] s).time))
  ∧ (∀ (m n : ℕ) (t : Wave2DState m n) (i : Fin m) (j : Fin n)
       (hi1 : 0 < i.val) (hi2 : i.val < m - 1) (hj1 : 0 < j.val)
       (hj2 : j.val < n - 1),
       (wave2d_substep t).u_ti i j =
         -t.u_tim1 i j + 2 * (1 - 2 * t.alpha2) * t.u_ti i j
           + t.alpha2 * (t.u_ti ⟨i.val - 1, by omega⟩ j + t.u_ti ⟨i.val + 1, by omega⟩ j
               + t.u_ti i ⟨j.val - 1, by omega⟩ + t.u_ti i ⟨j.val + 1, by omega⟩))
  ∧ (∀ (m n : ℕ) (t : Wave2DState m n) (i : Fin m) (j : Fin n),
       i.val = 0 ∨ j.val = 0 ∨ i.val = m - 1 ∨ j.val = n - 1 →
       (wave2d_substep t).u_ti i j = 0)
  ∧ (∀ (m n : ℕ) (t : Wave2DState m n),
       (wave2d_substep t).time = t.time + t.dt
         ∧ (wave2d_substep t).u_tim1 = t.u_ti
         ∧ (wave2d_substep t).u_ti = (wave2d_substep t).u_tip1)
  ∧ (∀ (m n : ℕ) (t : Wave2DState m n) (steps k : ℕ), 1 ≤ steps →
       wave2d_yield t steps k =
         ((wave2d_substep^[steps * k] t).u_ti,
          (wave2d_substep^[steps * k] t).time)) := by
  refine ⟨?_, ?_, ?_, ?_, ?_, ?_, ?_, ?_⟩
  · intro n s i h1 h2
    rw [wave1d_substep_u_ti, bound_standing_interior _ _ (by omega)]
    simp only [roll_p1, roll_m1, wrap_left_interior h1 i.isLt,
      wrap_right_interior (show i.val + 1 < n by omega)]
  · intro n s i h
    exact if_pos h
  · intro n s
    exact ⟨rfl, rfl, rfl⟩
  · intro n s steps k _
    rfl
  · intro m n t i j hi1 hi2 hj1 hj2
    rw [wave2d_substep_u_ti, bound_standing2_interior _ _ _ (by omega)]
    simp only [roll_p1_ax0, roll_m1_ax0, roll_p1_ax1, roll_m1_ax1,
      wrap_left_interior hi1 i.isLt, wrap_right_interior (show i.val + 1 < m by omega),
      wrap_left_interior hj1 j.isLt, wrap_right_interior (show j.val + 1 < n by omega)]
  · intro m n t i j h
    exact if_pos h
  · intro m n t
    exact ⟨rfl, rfl, rfl⟩
  · intro m n t steps k _
    rfl

/-- Witness for C1: the sub-step formula, boundary zeroing, rotation and
yield bookkeeping evaluated on the concrete states `s1ex` and `s2ex`. -/
theorem substep_spec_c1_witness :
    (0 < (1:ℕ) ∧ (1:ℕ) < 4 - 1 ∧ (1:ℕ) ≤ 2)
  ∧ (wave1d_substep s1ex).u_ti ⟨1, by norm_num⟩ = 19/4
  ∧ (wave1d_substep s1ex).u_ti ⟨0, by norm_num⟩ = 0
  ∧ wave1d_yield s1ex 2 1 =
      ((wave1d_substep^[2 * 1] s1ex).u_ti, (wave1d_substep^[2 * 1] s1ex).time)
  ∧ (wave2d_substep s2ex).u_ti ⟨1, by norm_num⟩ ⟨1, by norm_num⟩ = 1
  ∧ (wave2d_substep s2ex).u_ti ⟨0, by norm_num⟩ ⟨1, by norm_num⟩ = 0
  ∧ wave2d_yield s2ex 2 1 =
      ((wave2d_substep^[2 * 1] s2ex).u_ti, (wave2d_substep^[2 * 1] s2ex).time) := by
  refine ⟨⟨by norm_num, by norm_num, by norm_num⟩, ?_, ?_, ?_, ?_, ?_, ?_⟩
  · exact (substep_spec_c1.1 4 s1ex ⟨1, by norm_num⟩ (by norm_num)
      (by norm_num)).trans (by norm_num [s1ex, exU1, exV1])
  · exact substep_spec_c1.2.1 4 s1ex ⟨0, by norm_num⟩ (Or.inl rfl)
  · exact substep_spec_c1.2.2.2.1 4 s1ex 2 1 (by norm_num)
  · exact (substep_spec_c1.2.2.2.2.1 3 3 s2ex ⟨1, by norm_num⟩ ⟨1, by norm_num⟩
      (by norm_num) (by norm_num) (by norm_num) (by norm_num)).trans
      (by norm_num [s2ex, exU2])
  · exact substep_spec_c1.2.2.2.2.2.1 3 3 s2ex ⟨0, by norm_num⟩ ⟨1, by norm_num⟩
      (Or.inl rfl)
  · exact substep_spec_c1.2.2.2.2.2.2.2 3 3 s2ex 2 1 (by norm_num)

/-! ### C2: the boundary invariant -/

lemma bnd1_iter_u_ti {n : ℕ} (u0 ut0 : Fin n → ℚ) (dt dx c : ℚ) (k : ℕ) :
    Bnd1 ((wave1d_substep^[k] (wave1d_mk n u0 ut0 dt dx c)).u_ti) := by
  cases k with
  | zero =>
      rw [Function.iterate_zero_apply, wave1d_mk_u_ti]
      exact bnd1_bound_standing _
  | succ j =>
      rw [Function.iterate_succ_apply', wave1d_substep_u_ti]
      exact bnd1_bound_standing _

lemma bnd1_iter_u_tim1 {n : ℕ} (u0 ut0 : Fin n → ℚ) (dt dx c : ℚ) (k : ℕ) :
    Bnd1 ((wave1d_substep^[k] (wave1d_mk n u0 ut0 dt dx c)).u_tim1) := by
  cases k with
  | zero =>
      rw [Function.iterate_zero_apply, wave1d_mk_u_tim1]
      exact bnd1_bound_standing _
  | succ j =>
      rw [Function.iterate_succ_apply']
      exact bnd1_iter_u_ti u0 ut0 dt dx c j

lemma bnd1_iter_u_tip1 {n : ℕ} (u0 ut0 : Fin n → ℚ) (dt dx c : ℚ) (k : ℕ) :
    Bnd1 ((wave1d_substep^[k] (wave1d_mk n u0 ut0 dt dx c)).u_tip1) := by
  cases k with
  | zero => exact fun i _ => rfl
  | succ j =>
      rw [Function.iterate_succ_apply']
      show Bnd1 ((wave1d_substep _).u_ti)
      rw [wave1d_substep_u_ti]
      exact bnd1_bound_standing _

lemma bnd2_iter_u_ti {m n : ℕ} (u0 ut0 : Fin m → Fin n → ℚ) (dt dxy c : ℚ)
    (k : ℕ) : Bnd2 ((wave2d_substep^[k] (wave2d_mk m n u0 ut0 dt dxy c)).u_ti) := by
  cases k with
  | zero =>
      rw [Function.iterate_zero_apply, wave2d_mk_u_ti]
      exact bnd2_bound_standing2 _
  | succ j =>
      rw [Function.iterate_succ_apply', wave2d_substep_u_ti]
      exact bnd2_bound_standing2 _

lemma bnd2_iter_u_tim1 {m n : ℕ} (u0 ut0 : Fin m → Fin n → ℚ) (dt dxy c : ℚ)
    (k : ℕ) : Bnd2 ((wave2d_substep^[k] (wave2d_mk m n u0 ut0 dt dxy c)).u_tim1) := by
  cases k with
  | zero =>
      rw [Function.iterate_zero_apply, wave2d_mk_u_tim1]
      exact bnd2_bound_standing2 _
  | succ j =>
      rw [Function.iterate_succ_apply']
      exact bnd2_iter_u_ti u0 ut0 dt dxy c j

lemma bnd2_iter_u_tip1 {m n : ℕ} (u0 ut0 : Fin m → Fin n → ℚ) (dt dxy c : ℚ)
    (k : ℕ) : Bnd2 ((wave2d_substep^[k] (wave2d_mk m n u0 ut0 dt dxy c)).u_tip1) := by
  cases k with
  | zero => exact fun i j _ => rfl
  | succ j =>
      rw [Function.iterate_succ_apply']
      show Bnd2 ((wave2d_substep _).u_ti)
      rw [wave2d_substep_u_ti]
      exact bnd2_bound_standing2 _

/-- C2: in every snapshot held or yielded by either stepper — the two
bootstrap levels built at construction, the scratch level, and the field
after every number of sub-steps — the first and last sample along every
axis are exactly `0`. -/
theorem boundary_invariant_c2 :
    (∀ (n : ℕ) (u0 ut0 : Fin n → ℚ) (dt dx c : ℚ) (s : Wave1DState n)
       (hinit : wave1d_init n u0 ut0 dt dx c = some s) (k : ℕ) (i : Fin n)
       (hb : i.val = 0 ∨ i.val = n - 1),
       (wave1d_substep^[k] s).u_tim1 i = 0
         ∧ (wave1d_substep^[k] s).u_ti i = 0
         ∧ (wave1d_substep^[k] s).u_tip1 i = 0)
  ∧ (∀ (m n : ℕ) (u0 ut0 : Fin m → Fin n → ℚ) (dt dxy c : ℚ)
       (t : Wave2DState m n) (hinit : wave2d_init m n u0 ut0 dt dxy c = some t)
       (k : ℕ) (i : Fin m) (j : Fin n)
       (hb : i.val = 0 ∨ j.val = 0 ∨ i.val = m - 1 ∨ j.val = n - 1),
       (wave2d_substep^[k] t).u_tim1 i j = 0
         ∧ (wave2d_substep^[k] t).u_ti i j = 0
         ∧ (wave2d_substep^[k] t).u_tip1 i j = 0) := by
  constructor
  · intro n u0 ut0 dt dx c s hinit k i hb
    rw [wave1d_init_some hinit]
    exact ⟨bnd1_iter_u_tim1 u0 ut0 dt dx c k i hb,
      bnd1_iter_u_ti u0 ut0 dt dx c k i hb,
      bnd1_iter_u_tip1 u0 ut0 dt dx c k i hb⟩
  · intro m n u0 ut0 dt dxy c t hinit k i j hb
    rw [wave2d_init_some hinit]
    exact ⟨bnd2_iter_u_tim1 u0 ut0 dt dxy c k i j hb,
      bnd2_iter_u_ti u0 ut0 dt dxy c k i j hb,
      bnd2_iter_u_tip1 u0 ut0 dt dxy c k i j hb⟩

/-- Witness for C2: the boundary invariant instantiated after 2 sub-steps
of a concretely constructed 1D stepper and a concretely constructed 2D
stepper. -/
theorem boundary_invariant_c2_witness :
    (wave1d_init 4 exU1 exV1 (1/2) 1 (1/4)
        = some (wave1d_mk 4 exU1 exV1 (1/2) 1 (1/4))
      ∧ ((wave1d_substep^[2] (wave1d_mk 4 exU1 exV1 (1/2) 1 (1/4))).u_tim1
            ⟨0, by norm_num⟩ = 0
        ∧ (wave1d_substep^[2] (wave1d_mk 4 exU1 exV1 (1/2) 1 (1/4))).u_ti
            ⟨0, by norm_num⟩ = 0
        ∧ (wave1d_substep^[2] (wave1d_mk 4 exU1 exV1 (1/2) 1 (1/4))).u_tip1
            ⟨0, by norm_num⟩ = 0))
  ∧ (wave2d_init 3 3 exU2 exU2 (1/4) 1 1
        = some (wave2d_mk 3 3 exU2 exU2 (1/4) 1 1)
      ∧ ((wave2d_substep^[2] (wave2d_mk 3 3 exU2 exU2 (1/4) 1 1)).u_tim1
            ⟨0, by norm_num⟩ ⟨1, by norm_num⟩ = 0
        ∧ (wave2d_substep^[2] (wave2d_mk 3 3 exU2 exU2 (1/4) 1 1)).u_ti
            ⟨0, by norm_num⟩ ⟨1, by norm_num⟩ = 0
        ∧ (wave2d_substep^[2] (wave2d_mk 3 3 exU2 exU2 (1/4) 1 1)).u_tip1
            ⟨0, by norm_num⟩ ⟨1, by norm_num⟩ = 0)) := by
  constructor
  · refine ⟨wave1d_init_eq_some _ _ (by norm_num [alpha2_1d]), ?_⟩
    exact boundary_invariant_c2.1 4 exU1 exV1 (1/2) 1 (1/4) _
      (wave1d_init_eq_some _ _ (by norm_num [alpha2_1d])) 2 ⟨0, by norm_num⟩
      (Or.inl rfl)
  · refine ⟨wave2d_init_eq_some _ _ (by norm_num [alpha2_2d]), ?_⟩
    exact boundary_invariant_c2.2 3 3 exU2 exU2 (1/4) 1 1 _
      (wave2d_init_eq_some _ _ (by norm_num [alpha2_2d])) 2 ⟨0, by norm_num⟩
      ⟨1, by norm_num⟩ (Or.inl rfl)

/-! ### C4: the 1D bootstrap -/

/-- C4: on successful 1D construction, `prev` is the sampled initial
position with its two boundary samples zeroed, `curr` carries the
one-step Taylor bootstrap
`dt·g[i] + (1−alpha2)·prev[i] + 0.5·alpha2·(prev[(i−1) mod n] + prev[(i+1) mod n])`
at every interior index and `0` at the two boundary indices, the clock
stands at `dt`, and the scratch level `next` is zero-filled. -/
theorem bootstrap_c4 (n : ℕ) (u0 ut0 : Fin n → ℚ) (dt dx c : ℚ)
    (s : Wave1DState n) (hinit : wave1d_init n u0 ut0 dt dx c = some s) :
    (∀ i : Fin n, s.u_tim1 i = if i.val = 0 ∨ i.val = n - 1 then 0 else u0 i)
  ∧ (∀ i : Fin n, i.val = 0 ∨ i.val = n - 1 → s.u_ti i = 0)
  ∧ (∀ i : Fin n, ¬(i.val = 0 ∨ i.val = n - 1) →
      s.u_ti i = dt * ut0 i + (1 - alpha2_1d c dt dx) * s.u_tim1 i
        + (1/2 : ℚ) * alpha2_1d c dt dx
          * (s.u_tim1 ⟨(i.val + (n - 1)) % n, Nat.mod_lt _ i.pos⟩
             + s.u_tim1 ⟨(i.val + 1) % n, Nat.mod_lt _ i.pos⟩))
  ∧ s.time = dt
  ∧ (∀ i : Fin n, s.u_tip1 i = 0) := by
  rw [wave1d_init_some hinit]
  refine ⟨fun i => rfl, fun i hb => if_pos hb, ?_, zero_add dt, fun i => rfl⟩
  intro i hi
  rw [wave1d_mk_u_ti, bound_standing_interior _ _ hi, wave1d_mk_u_tim1]
  simp only [roll_p1, roll_m1]

/-- Witness for C4: the bootstrap contract evaluated on a concretely
constructed 1D stepper (`alpha2 = 1/64`). -/
theorem bootstrap_c4_witness :
    wave1d_init 4 exU1 exV1 (1/2) 1 (1/4)
      = some (wave1d_mk 4 exU1 exV1 (1/2) 1 (1/4))
  ∧ (wave1d_mk 4 exU1 exV1 (1/2) 1 (1/4)).u_tim1 ⟨1, by norm_num⟩ = 1
  ∧ (wave1d_mk 4 exU1 exV1 (1/2) 1 (1/4)).u_ti ⟨0, by norm_num⟩ = 0
  ∧ (wave1d_mk 4 exU1 exV1 (1/2) 1 (1/4)).u_ti ⟨1, by norm_num⟩ = 5/2
  ∧ (wave1d_mk 4 exU1 exV1 (1/2) 1 (1/4)).time = 1/2
  ∧ (wave1d_mk 4 exU1 exV1 (1/2) 1 (1/4)).u_tip1 ⟨1, by norm_num⟩ = 0 := by
  have hinit : wave1d_init 4 exU1 exV1 (1/2) 1 (1/4)
      = some (wave1d_mk 4 exU1 exV1 (1/2) 1 (1/4)) :=
    wave1d_init_eq_some _ _ (by norm_num [alpha2_1d])
  have h := bootstrap_c4 4 exU1 exV1 (1/2) 1 (1/4) _ hinit
  refine ⟨hinit, (h.1 ⟨1, by norm_num⟩).trans (by norm_num [exU1]), ?_, ?_,
    h.2.2.2.1, ?_⟩
  · exact h.2.1 ⟨0, by norm_num⟩ (Or.inl rfl)
  · refine (h.2.2.1 ⟨1, by norm_num⟩ (by decide)).trans ?_
    norm_num [wave1d_mk_u_tim1, bound_standing, exU1, exV1, alpha2_1d]
  · exact h.2.2.2.2 ⟨1, by norm_num⟩

/-! ### C6: clock monotonicity -/

lemma wave1d_substep_time {n : ℕ} (s : Wave1DState n) :
    (wave1d_substep s).time = s.time + s.dt := rfl

lemma wave1d_iter_dt {n : ℕ} (s : Wave1DState n) (k : ℕ) :
    (wave1d_substep^[k] s).dt = s.dt := by
  induction k with
  | zero => rfl
  | succ j ih => rw [Function.iterate_succ_apply']; exact ih

lemma wave1d_iter_time {n : ℕ} (s : Wave1DState n) (k : ℕ) :
    (wave1d_substep^[k] s).time = s.time + (k : ℚ) * s.dt := by
  induction k with
  | zero => simp
  | succ j ih =>
      rw [Function.iterate_succ_apply', wave1d_substep_time, ih,
        wave1d_iter_dt]
      push_cast
      ring

/-- C6: the clock of a constructed 1D stepper equals `dt` right after
construction, each sub-step adds exactly `dt` to it, and after `np`
pulls of `iteration(steps=1)` the yielded elapsed time is `dt + np·dt`
exactly. -/
theorem clock_c6 (n : ℕ) (u0 ut0 : Fin n → ℚ) (dt dx c : ℚ)
    (s : Wave1DState n) (hinit : wave1d_init n u0 ut0 dt dx c = some s) :
    s.time = dt
  ∧ (∀ k : ℕ, (wave1d_substep (wave1d_substep^[k] s)).time
      = (wave1d_substep^[k] s).time + dt)
  ∧ (∀ np : ℕ, (wave1d_yield s 1 np).2 = dt + (np : ℚ) * dt) := by
  rw [wave1d_init_some hinit]
  refine ⟨zero_add dt, ?_, ?_⟩
  · intro k
    rw [wave1d_substep_time, wave1d_iter_dt]
    rfl
  · intro np
    show (wave1d_substep^[1 * np] _).time = _
    rw [wave1d_iter_time, one_mul]
    show 0 + dt + (np : ℚ) * dt = _
    ring

/-- Witness for C6: the clock contract evaluated on a concretely
constructed 1D stepper with `dt = 1/2`, after 1 sub-step and after 2
pulls. -/
theorem clock_c6_witness :
    wave1d_init 4 exU1 exV1 (1/2) 1 (1/4)
      = some (wave1d_mk 4 exU1 exV1 (1/2) 1 (1/4))
  ∧ (wave1d_mk 4 exU1 exV1 (1/2) 1 (1/4)).time = 1/2
  ∧ (wave1d_substep (wave1d_substep^[1] (wave1d_mk 4 exU1 exV1 (1/2) 1 (1/4)))).time
      = (wave1d_substep^[1] (wave1d_mk 4 exU1 exV1 (1/2) 1 (1/4))).time + 1/2
  ∧ (wave1d_yield (wave1d_mk 4 exU1 exV1 (1/2) 1 (1/4)) 1 2).2
      = 1/2 + (2 : ℚ) * (1/2) := by
  have hinit : wave1d_init 4 exU1 exV1 (1/2) 1 (1/4)
      = some (wave1d_mk 4 exU1 exV1 (1/2) 1 (1/4)) :=
    wave1d_init_eq_some _ _ (by norm_num [alpha2_1d])
  have h := clock_c6 4 exU1 exV1 (1/2) 1 (1/4) _ hinit
  exact ⟨hinit, h.1, h.2.1 1, (h.2.2 2).trans (by norm_num)⟩

/-! ### C9: the all-zero end-to-end scenario -/

lemma bound_standing_zero {n : ℕ} :
    bound_standing (fun _ : Fin n => (0:ℚ)) = fun _ => 0 := by
  funext i
  unfold bound_standing
  split <;> rfl

lemma bound_standing_congr {n : ℕ} {f g : Fin n → ℚ} (h : ∀ i, f i = g i)
    (i : Fin n) : bound_standing f i = bound_standing g i := by
  unfold bound_standing
  split
  · rfl
  · exact h i

lemma wave1d_mk_time {n : ℕ} (u0 ut0 : Fin n → ℚ) (dt dx c : ℚ) :
    (wave1d_mk n u0 ut0 dt dx c).time = 0 + dt := rfl

lemma wave1d_mk_dt {n : ℕ} (u0 ut0 : Fin n → ℚ) (dt dx c : ℚ) :
    (wave1d_mk n u0 ut0 dt dx c).dt = dt := rfl

lemma zero_state_iter {n : ℕ} (dt dx c : ℚ) (k : ℕ) :
    (∀ i, (wave1d_substep^[k]
        (wave1d_mk n (fun _ => 0) (fun _ => 0) dt dx c)).u_tim1 i = 0)
  ∧ (∀ i, (wave1d_substep^[k]
        (wave1d_mk n (fun _ => 0) (fun _ => 0) dt dx c)).u_ti i = 0) := by
  induction k with
  | zero =>
      constructor
      · intro i
        rw [Function.iterate_zero_apply, wave1d_mk_u_tim1, bound_standing_zero]
      · intro i
        rw [Function.iterate_zero_apply, wave1d_mk_u_ti]
        refine (bound_standing_congr (g := fun _ => 0) ?_ i).trans
          (by rw [bound_standing_zero])
        intro j
        simp only [roll_p1, roll_m1, bound_standing_zero]
        ring
  | succ j ih =>
      rw [Function.iterate_succ_apply']
      constructor
      · exact ih.2
      · intro i
        rw [wave1d_substep_u_ti]
        refine (bound_standing_congr (g := fun _ => 0) ?_ i).trans
          (by rw [bound_standing_zero])
        intro l
        simp only [roll_p1, roll_m1]
        rw [ih.1, ih.2, ih.2, ih.2]
        ring

/-- C9: the 1D stepper with `L=8, dx=0.005, dt=0.001, c=1` has a
1601-sample grid, and from the all-zero initial position and all-zero
initial velocity every field it ever yields is identically zero while
the clock reads `dt + k·dt` after `k` sub-steps. -/
theorem zero_scenario_c9 :
    wave1d_n 8 (5/1000) = 1601
  ∧ ∀ (k : ℕ) (i : Fin 1601),
      Option.map
          (fun s => ((wave1d_substep^[k] s).u_ti i, (wave1d_substep^[k] s).time))
          (wave1d_init 1601 (fun _ => 0) (fun _ => 0) (1/1000) (5/1000) 1)
        = some (0, 1/1000 + (k : ℚ) * (1/1000)) := by
  constructor
  · have h : ((8:ℚ) + 5/1000) / (5/1000) = (1601 : ℤ) := by norm_num
    rw [wave1d_n, arangeLen, h, Int.ceil_intCast]
    rfl
  · intro k i
    rw [wave1d_init_eq_some _ _ (by norm_num [alpha2_1d])]
    simp only [Option.map_some', Prod.mk.injEq, Option.some.injEq]
    refine ⟨(zero_state_iter (1/1000 : ℚ) (5/1000) 1 k).2 i, ?_⟩
    rw [wave1d_iter_time, wave1d_mk_time, wave1d_mk_dt]
    ring

/-! ### C10: determinism -/

/-- C10: the steppers are deterministic — two instances constructed from
pointwise-equal initial-position and initial-velocity fields and
identical numeric parameters produce identical `(field, time)` yields
for every number of pulls and every sub-step count; the output is a
function of the constructor arguments alone. -/
theorem determinism_c10 :
    (∀ (n : ℕ) (u0 v0 ut0 vt0 : Fin n → ℚ) (dt dx c : ℚ)
       (hu : ∀ i, u0 i = v0 i) (hv : ∀ i, ut0 i = vt0 i) (steps k : ℕ),
       Option.map (fun s => wave1d_yield s steps k)
           (wave1d_init n u0 ut0 dt dx c)
         = Option.map (fun s => wave1d_yield s steps k)
             (wave1d_init n v0 vt0 dt dx c))
  ∧ (∀ (m n : ℕ) (u0 v0 ut0 vt0 : Fin m → Fin n → ℚ) (dt dxy c : ℚ)
       (hu : ∀ i j, u0 i j = v0 i j) (hv : ∀ i j, ut0 i j = vt0 i j)
       (steps k : ℕ),
       Option.map (fun t => wave2d_yield t steps k)
           (wave2d_init m n u0 ut0 dt dxy c)
         = Option.map (fun t => wave2d_yield t steps k)
             (wave2d_init m n v0 vt0 dt dxy c)) := by
  constructor
  · intro n u0 v0 ut0 vt0 dt dx c hu hv steps k
    rw [funext hu, funext hv]
  · intro m n u0 v0 ut0 vt0 dt dxy c hu hv steps k
    rw [funext (fun i => funext (hu i)), funext (fun i => funext (hv i))]

/-- Witness for C10: two 1D steppers and two 2D steppers built from
syntactically different but pointwise-equal initial fields yield
identically. -/
theorem determinism_c10_witness :
    Option.map (fun s => wave1d_yield s 2 3)
        (wave1d_init 4 exU1 (fun _ => 0) (1/2) 1 (1/4))
      = Option.map (fun s => wave1d_yield s 2 3)
          (wave1d_init 4 (fun i => exU1 i + 0) (fun _ => 0 + 0) (1/2) 1 (1/4))
  ∧ Option.map (fun t => wave2d_yield t 2 3)
        (wave2d_init 3 3 exU2 (fun _ _ => 0) (1/4) 1 1)
      = Option.map (fun t => wave2d_yield t 2 3)
          (wave2d_init 3 3 (fun i j => exU2 i j + 0) (fun _ _ => 0 + 0)
            (1/4) 1 1) := by
  constructor
  · exact determinism_c10.1 4 exU1 (fun i => exU1 i + 0) (fun _ => 0)
      (fun _ => 0 + 0) (1/2) 1 (1/4) (fun i => by ring) (fun i => by ring) 2 3
  · exact determinism_c10.2 3 3 exU2 (fun i j => exU2 i j + 0) (fun _ _ => 0)
      (fun _ _ => 0 + 0) (1/4) 1 1 (fun i j => by ring) (fun i j => by ring) 2 3

/-! ### C5: wraparound masked by the boundary reset -/

/-- Left neighbor lookup with the out-of-domain neighbor of sample `0`
fixed to zero (instead of wrapping to the last sample). -/
def zshift_p1 {n : ℕ} (a : Fin n → ℚ) : Fin n → ℚ := fun i =>
  if i.val = 0 then 0
  else a ⟨i.val - 1, Nat.lt_of_le_of_lt (Nat.sub_le _ _) i.isLt⟩

/-- Right neighbor lookup with the out-of-domain neighbor of the last
sample fixed to zero. -/
def zshift_m1 {n : ℕ} (a : Fin n → ℚ) : Fin n → ℚ := fun i =>
  if h : i.val + 1 < n then a ⟨i.val + 1, h⟩ else 0

lemma roll_p1_eq_zshift {n : ℕ} {a : Fin n → ℚ} (h : Bnd1 a) (i : Fin n) :
    roll_p1 a i = zshift_p1 a i := by
  unfold roll_p1 zshift_p1
  by_cases h0 : i.val = 0
  · rw [if_pos h0]
    refine h _ (Or.inr ?_)
    show (i.val + (n - 1)) % n = n - 1
    rw [h0]
    exact wrap_left_zero i.pos
  · rw [if_neg h0]
    congr 1
    exact Fin.ext (wrap_left_interior (Nat.pos_of_ne_zero h0) i.isLt)

lemma roll_m1_eq_zshift {n : ℕ} {a : Fin n → ℚ} (h : Bnd1 a) (i : Fin n) :
    roll_m1 a i = zshift_m1 a i := by
  unfold roll_m1 zshift_m1
  by_cases hlt : i.val + 1 < n
  · rw [dif_pos hlt]
    congr 1
    exact Fin.ext (wrap_right_interior hlt)
  · rw [dif_neg hlt]
    have hival : i.val = n - 1 := by have := i.isLt; omega
    refine h _ (Or.inl ?_)
    show (i.val + 1) % n = 0
    rw [hival]
    exact wrap_right_last i.pos

/-- The 1D bootstrap with zero-fixed out-of-domain neighbors in place of
the circular lookup. -/
def wave1d_mk_z (n : ℕ) (u0 ut0 : Fin n → ℚ) (dt dx c : ℚ) : Wave1DState n :=
  let alpha2 := alpha2_1d c dt dx
  let prev := bound_standing u0
  let curr := bound_standing (fun i =>
    dt * ut0 i + (1 - alpha2) * prev i
      + (1 / 2 : ℚ) * alpha2 * (zshift_p1 prev i + zshift_m1 prev i))
  { alpha2 := alpha2
    dt := dt
    time := 0 + dt
    u_tim1 := prev
    u_ti := curr
    u_tip1 := fun _ => 0 }

/-- The 1D sub-step with zero-fixed out-of-domain neighbors in place of
the circular lookup. -/
def wave1d_substep_z {n : ℕ} (s : Wave1DState n) : Wave1DState n :=
  let next := bound_standing (fun i =>
    -s.u_tim1 i + 2 * (1 - s.alpha2) * s.u_ti i
      + s.alpha2 * (zshift_p1 s.u_ti i + zshift_m1 s.u_ti i))
  { alpha2 := s.alpha2
    dt := s.dt
    time := s.time + s.dt
    u_tim1 := s.u_ti
    u_ti := next
    u_tip1 := next }

/-- Zero-fixed neighbor lookups on a 2D field, one per shift direction. -/
def zshift_p1_ax0 {m n : ℕ} (a : Fin m → Fin n → ℚ) : Fin m → Fin n → ℚ :=
  fun i j => if i.val = 0 then 0
    else a ⟨i.val - 1, Nat.lt_of_le_of_lt (Nat.sub_le _ _) i.isLt⟩ j

def zshift_m1_ax0 {m n : ℕ} (a : Fin m → Fin n → ℚ) : Fin m → Fin n → ℚ :=
  fun i j => if h : i.val + 1 < m then a ⟨i.val + 1, h⟩ j else 0

def zshift_p1_ax1 {m n : ℕ} (a : Fin m → Fin n → ℚ) : Fin m → Fin n → ℚ :=
  fun i j => if j.val = 0 then 0
    else a i ⟨j.val - 1, Nat.lt_of_le_of_lt (Nat.sub_le _ _) j.isLt⟩

def zshift_m1_ax1 {m n : ℕ} (a : Fin m → Fin n → ℚ) : Fin m → Fin n → ℚ :=
  fun i j => if h : j.val + 1 < n then a i ⟨j.val + 1, h⟩ else 0

lemma roll_p1_ax0_eq_zshift {m n : ℕ} {a : Fin m → Fin n → ℚ} (h : Bnd2 a)
    (i : Fin m) (j : Fin n) : roll_p1_ax0 a i j = zshift_p1_ax0 a i j := by
  unfold roll_p1_ax0 zshift_p1_ax0
  by_cases h0 : i.val = 0
  · rw [if_pos h0]
    refine h _ _ (Or.inr (Or.inr (Or.inl ?_)))
    show (i.val + (m - 1)) % m = m - 1
    rw [h0]
    exact wrap_left_zero i.pos
  · rw [if_neg h0]
    have he : (⟨(i.val + (m - 1)) % m, Nat.mod_lt _ i.pos⟩ : Fin m)
        = ⟨i.val - 1, Nat.lt_of_le_of_lt (Nat.sub_le _ _) i.isLt⟩ :=
      Fin.ext (wrap_left_interior (Nat.pos_of_ne_zero h0) i.isLt)
    rw [he]

lemma roll_m1_ax0_eq_zshift {m n : ℕ} {a : Fin m → Fin n → ℚ} (h : Bnd2 a)
    (i : Fin m) (j : Fin n) : roll_m1_ax0 a i j = zshift_m1_ax0 a i j := by
  unfold roll_m1_ax0 zshift_m1_ax0
  by_cases hlt : i.val + 1 < m
  · rw [dif_pos hlt]
    have he : (⟨(i.val + 1) % m, Nat.mod_lt _ i.pos⟩ : Fin m) = ⟨i.val + 1, hlt⟩ :=
      Fin.ext (wrap_right_interior hlt)
    rw [he]
  · rw [dif_neg hlt]
    have hival : i.val = m - 1 := by have := i.isLt; omega
    refine h _ _ (Or.inl ?_)
    show (i.val + 1) % m = 0
    rw [hival]
    exact wrap_right_last i.pos

lemma roll_p1_ax1_eq_zshift {m n : ℕ} {a : Fin m → Fin n → ℚ} (h : Bnd2 a)
    (i : Fin m) (j : Fin n) : roll_p1_ax1 a i j = zshift_p1_ax1 a i j := by
  unfold roll_p1_ax1 zshift_p1_ax1
  by_cases h0 : j.val = 0
  · rw [if_pos h0]
    refine h _ _ (Or.inr (Or.inr (Or.inr ?_)))
    show (j.val + (n - 1)) % n = n - 1
    rw [h0]
    exact wrap_left_zero j.pos
  · rw [if_neg h0]
    have he : (⟨(j.val + (n - 1)) % n, Nat.mod_lt _ j.pos⟩ : Fin n)
        = ⟨j.val - 1, Nat.lt_of_le_of_lt (Nat.sub_le _ _) j.isLt⟩ :=
      Fin.ext (wrap_left_interior (Nat.pos_of_ne_zero h0) j.isLt)
    rw [he]

lemma roll_m1_ax1_eq_zshift {m n : ℕ} {a : Fin m → Fin n → ℚ} (h : Bnd2 a)
    (i : Fin m) (j : Fin n) : roll_m1_ax1 a i j = zshift_m1_ax1 a i j := by
  unfold roll_m1_ax1 zshift_m1_ax1
  by_cases hlt : j.val + 1 < n
  · rw [dif_pos hlt]
    have he : (⟨(j.val + 1) % n, Nat.mod_lt _ j.pos⟩ : Fin n) = ⟨j.val + 1, hlt⟩ :=
      Fin.ext (wrap_right_interior hlt)
    rw [he]
  · rw [dif_neg hlt]
    have hival : j.val = n - 1 := by have := j.isLt; omega
    refine h _ _ (Or.inr (Or.inl ?_))
    show (j.val + 1) % n = 0
    rw [hival]
    exact wrap_right_last j.pos

/-- The 2D bootstrap with zero-fixed out-of-domain neighbors. -/
def wave2d_mk_z (m n : ℕ) (u0 ut0 : Fin m → Fin n → ℚ) (dt dxy c : ℚ) :
    Wave2DState m n :=
  let alpha2 := alpha2_2d c dt dxy
  let prev := bound_standing2 u0
  let curr := bound_standing2 (fun i j =>
    dt * ut0 i j + (1 - 2 * alpha2) * prev i j
      + (1 / 2 : ℚ) * alpha2 * (zshift_p1_ax0 prev i j + zshift_m1_ax0 prev i j
          + zshift_p1_ax1 prev i j + zshift_m1_ax1 prev i j))
  { alpha2 := alpha2
    dt := dt
    time := 0 + dt
    u_tim1 := prev
    u_ti := curr
    u_tip1 := fun _ _ => 0 }

/-- The 2D sub-step with zero-fixed out-of-domain neighbors. -/
def wave2d_substep_z {m n : ℕ} (s : Wave2DState m n) : Wave2DState m n :=
  let next := bound_standing2 (fun i j =>
    -s.u_tim1 i j + 2 * (1 - 2 * s.alpha2) * s.u_ti i j
      + s.alpha2 * (zshift_p1_ax0 s.u_ti i j + zshift_m1_ax0 s.u_ti i j
          + zshift_p1_ax1 s.u_ti i j + zshift_m1_ax1 s.u_ti i j))
  { alpha2 := s.alpha2
    dt := s.dt
    time := s.time + s.dt
    u_tim1 := s.u_ti
    u_ti := next
    u_tip1 := next }

lemma bound_standing2_congr {m n : ℕ} {f g : Fin m → Fin n → ℚ}
    (h : ∀ i j, f i j = g i j) (i : Fin m) (j : Fin n) :
    bound_standing2 f i j = bound_standing2 g i j := by
  unfold bound_standing2
  split
  · rfl
  · exact h i j

lemma wave1d_mk_z_u_ti {n : ℕ} (u0 ut0 : Fin n → ℚ) (dt dx c : ℚ) :
    (wave1d_mk_z n u0 ut0 dt dx c).u_ti = bound_standing (fun i =>
      dt * ut0 i + (1 - alpha2_1d c dt dx) * bound_standing u0 i
        + (1 / 2 : ℚ) * alpha2_1d c dt dx
          * (zshift_p1 (bound_standing u0) i + zshift_m1 (bound_standing u0) i)) :=
  rfl

lemma wave1d_substep_z_u_ti {n : ℕ} (s : Wave1DState n) :
    (wave1d_substep_z s).u_ti = bound_standing (fun i =>
      -s.u_tim1 i + 2 * (1 - s.alpha2) * s.u_ti i
        + s.alpha2 * (zshift_p1 s.u_ti i + zshift_m1 s.u_ti i)) := rfl

lemma wave2d_mk_z_u_ti {m n : ℕ} (u0 ut0 : Fin m → Fin n → ℚ) (dt dxy c : ℚ) :
    (wave2d_mk_z m n u0 ut0 dt dxy c).u_ti = bound_standing2 (fun i j =>
      dt * ut0 i j + (1 - 2 * alpha2_2d c dt dxy) * bound_standing2 u0 i j
        + (1 / 2 : ℚ) * alpha2_2d c dt dxy
          * (zshift_p1_ax0 (bound_standing2 u0) i j
              + zshift_m1_ax0 (bound_standing2 u0) i j
              + zshift_p1_ax1 (bound_standing2 u0) i j
              + zshift_m1_ax1 (bound_standing2 u0) i j)) := rfl

lemma wave2d_substep_z_u_ti {m n : ℕ} (t : Wave2DState m n) :
    (wave2d_substep_z t).u_ti = bound_standing2 (fun i j =>
      -t.u_tim1 i j + 2 * (1 - 2 * t.alpha2) * t.u_ti i j
        + t.alpha2 * (zshift_p1_ax0 t.u_ti i j + zshift_m1_ax0 t.u_ti i j
            + zshift_p1_ax1 t.u_ti i j + zshift_m1_ax1 t.u_ti i j)) := rfl

/-- C5: for every constructed stepper, replacing the circular neighbor
lookup (`np.roll`) by out-of-domain neighbors fixed to zero changes
nothing observable: the bootstrap level and the field after every
sub-step agree sample-for-sample with the rolled version once the
boundary reset has been applied — the wraparound contribution is always
masked (so any difference is indeed confined to nothing at all, a
fortiori to the second-from-boundary bootstrap samples the spec
allows). -/
theorem circular_masking_c5 :
    (∀ (n : ℕ) (u0 ut0 : Fin n → ℚ) (dt dx c : ℚ) (s : Wave1DState n)
       (hinit : wave1d_init n u0 ut0 dt dx c = some s),
       (∀ i, (wave1d_mk_z n u0 ut0 dt dx c).u_ti i = s.u_ti i)
     ∧ ∀ (k : ℕ) (i : Fin n),
         (wave1d_substep_z (wave1d_substep^[k] s)).u_ti i
           = (wave1d_substep (wave1d_substep^[k] s)).u_ti i)
  ∧ (∀ (m n : ℕ) (u0 ut0 : Fin m → Fin n → ℚ) (dt dxy c : ℚ)
       (t : Wave2DState m n) (hinit : wave2d_init m n u0 ut0 dt dxy c = some t),
       (∀ i j, (wave2d_mk_z m n u0 ut0 dt dxy c).u_ti i j = t.u_ti i j)
     ∧ ∀ (k : ℕ) (i : Fin m) (j : Fin n),
         (wave2d_substep_z (wave2d_substep^[k] t)).u_ti i j
           = (wave2d_substep (wave2d_substep^[k] t)).u_ti i j) := by
  constructor
  · intro n u0 ut0 dt dx c s hinit
    rw [wave1d_init_some hinit]
    constructor
    · intro i
      rw [wave1d_mk_z_u_ti, wave1d_mk_u_ti]
      exact bound_standing_congr (fun j => by
        rw [roll_p1_eq_zshift (bnd1_bound_standing u0) j,
          roll_m1_eq_zshift (bnd1_bound_standing u0) j]) i
    · intro k i
      rw [wave1d_substep_z_u_ti, wave1d_substep_u_ti]
      exact bound_standing_congr (fun j => by
        rw [roll_p1_eq_zshift (bnd1_iter_u_ti u0 ut0 dt dx c k) j,
          roll_m1_eq_zshift (bnd1_iter_u_ti u0 ut0 dt dx c k) j]) i
  · intro m n u0 ut0 dt dxy c t hinit
    rw [wave2d_init_some hinit]
    constructor
    · intro i j
      rw [wave2d_mk_z_u_ti, wave2d_mk_u_ti]
      exact bound_standing2_congr (fun a b => by
        rw [roll_p1_ax0_eq_zshift (bnd2_bound_standing2 u0) a b,
          roll_m1_ax0_eq_zshift (bnd2_bound_standing2 u0) a b,
          roll_p1_ax1_eq_zshift (bnd2_bound_standing2 u0) a b,
          roll_m1_ax1_eq_zshift (bnd2_bound_standing2 u0) a b]) i j
    · intro k i j
      rw [wave2d_substep_z_u_ti, wave2d_substep_u_ti]
      exact bound_standing2_congr (fun a b => by
        rw [roll_p1_ax0_eq_zshift (bnd2_iter_u_ti u0 ut0 dt dxy c k) a b,
          roll_m1_ax0_eq_zshift (bnd2_iter_u_ti u0 ut0 dt dxy c k) a b,
          roll_p1_ax1_eq_zshift (bnd2_iter_u_ti u0 ut0 dt dxy c k) a b,
          roll_m1_ax1_eq_zshift (bnd2_iter_u_ti u0 ut0 dt dxy c k) a b]) i j

/-- Witness for C5: the zero-padded and circular formulations evaluated
on a concretely constructed 1D and 2D stepper, at the bootstrap level
and after one sub-step. -/
theorem circular_masking_c5_witness :
    (wave1d_init 4 exU1 exV1 (1/2) 1 (1/4)
        = some (wave1d_mk 4 exU1 exV1 (1/2) 1 (1/4))
      ∧ (wave1d_mk_z 4 exU1 exV1 (1/2) 1 (1/4)).u_ti ⟨2, by norm_num⟩
          = (wave1d_mk 4 exU1 exV1 (1/2) 1 (1/4)).u_ti ⟨2, by norm_num⟩
      ∧ (wave1d_substep_z (wave1d_substep^[1] (wave1d_mk 4 exU1 exV1 (1/2) 1 (1/4)))).u_ti
            ⟨2, by norm_num⟩
          = (wave1d_substep (wave1d_substep^[1] (wave1d_mk 4 exU1 exV1 (1/2) 1 (1/4)))).u_ti
            ⟨2, by norm_num⟩)
  ∧ (wave2d_init 3 3 exU2 exU2 (1/4) 1 1
        = some (wave2d_mk 3 3 exU2 exU2 (1/4) 1 1)
      ∧ (wave2d_mk_z 3 3 exU2 exU2 (1/4) 1 1).u_ti ⟨1, by norm_num⟩ ⟨1, by norm_num⟩
          = (wave2d_mk 3 3 exU2 exU2 (1/4) 1 1).u_ti ⟨1, by norm_num⟩ ⟨1, by norm_num⟩
      ∧ (wave2d_substep_z (wave2d_substep^[1] (wave2d_mk 3 3 exU2 exU2 (1/4) 1 1))).u_ti
            ⟨1, by norm_num⟩ ⟨1, by norm_num⟩
          = (wave2d_substep (wave2d_substep^[1] (wave2d_mk 3 3 exU2 exU2 (1/4) 1 1))).u_ti
            ⟨1, by norm_num⟩ ⟨1, by norm_num⟩) := by
  constructor
  · have hinit : wave1d_init 4 exU1 exV1 (1/2) 1 (1/4)
        = some (wave1d_mk 4 exU1 exV1 (1/2) 1 (1/4)) :=
      wave1d_init_eq_some _ _ (by norm_num [alpha2_1d])
    have h := circular_masking_c5.1 4 exU1 exV1 (1/2) 1 (1/4) _ hinit
    exact ⟨hinit, h.1 ⟨2, by norm_num⟩, h.2 1 ⟨2, by norm_num⟩⟩
  · have hinit : wave2d_init 3 3 exU2 exU2 (1/4) 1 1
        = some (wave2d_mk 3 3 exU2 exU2 (1/4) 1 1) :=
      wave2d_init_eq_some _ _ (by norm_num [alpha2_2d])
    have h := circular_masking_c5.2 3 3 exU2 exU2 (1/4) 1 1 _ hinit
    exact ⟨hinit, h.1 ⟨1, by norm_num⟩ ⟨1, by norm_num⟩,
      h.2 1 ⟨1, by norm_num⟩ ⟨1, by norm_num⟩⟩

/-! ### C7: the coordinate grid -/

/-- C7 counterexample: `L = 1, dx = 1` is admissible (both positive) yet
`np.arange(0, L + dx, dx)` has `2` samples, not `floor(L/dx) + 2 = 3` as
the claim states for every admissible pair. -/
theorem grid_c7_counterexample :
    (0:ℚ) < 1 ∧ wave1d_n 1 1 = 2 ∧ (⌊(1:ℚ) / 1⌋).toNat + 2 = 3
      ∧ wave1d_n 1 1 ≠ (⌊(1:ℚ) / 1⌋).toNat + 2 := by
  have h2 : ((1:ℚ) + 1) / 1 = ((2:ℤ) : ℚ) := by norm_num
  have hn : wave1d_n 1 1 = 2 := by
    rw [wave1d_n, arangeLen, h2, Int.ceil_intCast]
    rfl
  have hf : (⌊(1:ℚ) / 1⌋).toNat + 2 = 3 := by
    have h1 : (1:ℚ) / 1 = ((1:ℤ) : ℚ) := by norm_num
    rw [h1, Int.floor_intCast]
    rfl
  exact ⟨by norm_num, hn, hf, by rw [hn, hf]; norm_num⟩

/-- C7 (amended): for positive `L` and `dx` the grid samples sit at
`i · dx`, the grid length is `⌈L/dx⌉ + 1` — that is `⌊L/dx⌋ + 2` when `L`
is not an integer multiple of `dx` and `⌊L/dx⌋ + 1` when it is — and the
final sample lies at or just past `L` (within one step); the 2D
constructor builds its axis grids by the same rule. -/
theorem grid_c7 (L dx : ℚ) (hL : 0 < L) (hdx : 0 < dx) :
    (∀ i, wave1d_x L dx i = (i.val : ℚ) * dx)
  ∧ 0 < wave1d_n L dx
  ∧ wave1d_n L dx = (⌈L / dx⌉).toNat + 1
  ∧ ((¬ ∃ k : ℤ, L = (k : ℚ) * dx) → wave1d_n L dx = (⌊L / dx⌋).toNat + 2)
  ∧ ((∃ k : ℤ, L = (k : ℚ) * dx) → wave1d_n L dx = (⌊L / dx⌋).toNat + 1)
  ∧ L ≤ ((wave1d_n L dx : ℚ) - 1) * dx
  ∧ ((wave1d_n L dx : ℚ) - 1) * dx < L + dx
  ∧ wave2d_nx L dx = wave1d_n L dx
  ∧ wave2d_ny L dx = wave1d_n L dx := by
  have hq : 0 < L / dx := div_pos hL hdx
  have hCpos : 0 < ⌈L / dx⌉ := Int.ceil_pos.mpr hq
  have hFnn : 0 ≤ ⌊L / dx⌋ := Int.floor_nonneg.mpr hq.le
  have hdiv : (L + dx) / dx = L / dx + 1 := by
    rw [add_div, div_self hdx.ne']
  have hkey : wave1d_n L dx = (⌈L / dx⌉ + 1).toNat := by
    rw [wave1d_n, arangeLen, hdiv, Int.ceil_add_one]
  have hmul : L / dx * dx = L := div_mul_cancel₀ L hdx.ne'
  have hcast : ((wave1d_n L dx : ℚ) - 1) = ((⌈L / dx⌉ : ℤ) : ℚ) := by
    rw [hkey]
    have h5 : ((⌈L / dx⌉ + 1).toNat : ℤ) = ⌈L / dx⌉ + 1 :=
      Int.toNat_of_nonneg (by omega)
    have h6 : (((⌈L / dx⌉ + 1).toNat : ℕ) : ℚ) = ((⌈L / dx⌉ : ℤ) : ℚ) + 1 := by
      rw [← Int.cast_natCast, h5]
      push_cast
      ring
    rw [h6]
    ring
  refine ⟨fun i => rfl, by omega, by omega, ?_, ?_, ?_, ?_, rfl, rfl⟩
  · intro hnm
    have hne : ⌈L / dx⌉ ≠ ⌊L / dx⌋ := by
      intro heq
      have h1 : L / dx ≤ (⌊L / dx⌋ : ℚ) := heq ▸ Int.le_ceil (L / dx)
      have h2 : ((⌊L / dx⌋ : ℤ) : ℚ) ≤ L / dx := Int.floor_le (L / dx)
      have h3 : L / dx = ((⌊L / dx⌋ : ℤ) : ℚ) := le_antisymm h1 h2
      exact hnm ⟨⌊L / dx⌋, (div_eq_iff hdx.ne').mp h3⟩
    have hle : ⌈L / dx⌉ ≤ ⌊L / dx⌋ + 1 := Int.ceil_le_floor_add_one (L / dx)
    have hge : ⌊L / dx⌋ ≤ ⌈L / dx⌉ := Int.floor_le_ceil (L / dx)
    omega
  · rintro ⟨k, hk⟩
    have hqk : L / dx = (k : ℚ) := by
      rw [hk, mul_div_cancel_right₀ _ hdx.ne']
    rw [hqk] at hkey ⊢
    rw [Int.ceil_intCast] at hkey
    rw [Int.floor_intCast]
    have hkpos : 0 < k := by
      have := hq
      rw [hqk] at this
      exact_mod_cast this
    omega
  · rw [hcast]
    calc L = L / dx * dx := hmul.symm
    _ ≤ ((⌈L / dx⌉ : ℤ) : ℚ) * dx :=
        mul_le_mul_of_nonneg_right (Int.le_ceil _) hdx.le
  · rw [hcast]
    have hlt : ((⌈L / dx⌉ : ℤ) : ℚ) < L / dx + 1 := Int.ceil_lt_add_one (L / dx)
    calc ((⌈L / dx⌉ : ℤ) : ℚ) * dx < (L / dx + 1) * dx :=
        mul_lt_mul_of_pos_right hlt hdx
    _ = L + dx := by rw [add_mul, one_mul, hmul]

/-- Witness for C7: the amended grid law evaluated at `L = 3/2, dx = 1`
(not an exact multiple: 3 samples) and `L = 2, dx = 1` (exact multiple:
3 samples). -/
theorem grid_c7_witness :
    (0:ℚ) < 3/2 ∧ (0:ℚ) < 1
  ∧ wave1d_n (3/2) 1 = (⌊(3/2 : ℚ) / 1⌋).toNat + 2
  ∧ wave1d_n 2 1 = (⌊(2 : ℚ) / 1⌋).toNat + 1 := by
  refine ⟨by norm_num, by norm_num, ?_, ?_⟩
  · refine (grid_c7 (3/2) 1 (by norm_num) (by norm_num)).2.2.2.1 ?_
    rintro ⟨k, hk⟩
    rw [mul_one] at hk
    have h2 : ((2 * k : ℤ) : ℚ) = 3 := by
      push_cast
      rw [← hk]
      norm_num
    have h3 : (2 * k : ℤ) = 3 := by exact_mod_cast h2
    omega
  · exact (grid_c7 2 1 (by norm_num) (by norm_num)).2.2.2.2.1
      ⟨2, by norm_num⟩

/-! ### C8: the midpoint sample -/

lemma wave1d_mk_alpha2 {n : ℕ} (u0 ut0 : Fin n → ℚ) (dt dx c : ℚ) :
    (wave1d_mk n u0 ut0 dt dx c).alpha2 = alpha2_1d c dt dx := rfl

lemma wave1d_mk_u_ti_interior {n : ℕ} (u0 ut0 : Fin n → ℚ) (dt dx c : ℚ)
    (i : Fin n) (h0 : 0 < i.val) (h1 : i.val < n - 1)
    (il ir : Fin n) (hl : il.val = i.val - 1) (hr : ir.val = i.val + 1) :
    (wave1d_mk n u0 ut0 dt dx c).u_ti i
      = dt * ut0 i + (1 - alpha2_1d c dt dx) * bound_standing u0 i
        + (1/2 : ℚ) * alpha2_1d c dt dx
          * (bound_standing u0 il + bound_standing u0 ir) := by
  rw [wave1d_mk_u_ti, bound_standing_interior _ _ (by omega)]
  simp only [roll_p1, roll_m1]
  have e1 : (⟨(i.val + (n - 1)) % n, Nat.mod_lt _ i.pos⟩ : Fin n) = il :=
    Fin.ext (by rw [hl]; exact wrap_left_interior h0 i.isLt)
  have e2 : (⟨(i.val + 1) % n, Nat.mod_lt _ i.pos⟩ : Fin n) = ir :=
    Fin.ext (by rw [hr]; exact wrap_right_interior (by omega))
  rw [e1, e2]

lemma wave1d_substep_u_ti_interior {n : ℕ} (s : Wave1DState n)
    (i : Fin n) (h0 : 0 < i.val) (h1 : i.val < n - 1)
    (il ir : Fin n) (hl : il.val = i.val - 1) (hr : ir.val = i.val + 1) :
    (wave1d_substep s).u_ti i
      = -s.u_tim1 i + 2 * (1 - s.alpha2) * s.u_ti i
        + s.alpha2 * (s.u_ti il + s.u_ti ir) := by
  rw [wave1d_substep_u_ti, bound_standing_interior _ _ (by omega)]
  simp only [roll_p1, roll_m1]
  have e1 : (⟨(i.val + (n - 1)) % n, Nat.mod_lt _ i.pos⟩ : Fin n) = il :=
    Fin.ext (by rw [hl]; exact wrap_left_interior h0 i.isLt)
  have e2 : (⟨(i.val + 1) % n, Nat.mod_lt _ i.pos⟩ : Fin n) = ir :=
    Fin.ext (by rw [hr]; exact wrap_right_interior (by omega))
  rw [e1, e2]

/-- A field symmetric (even) about the midpoint of a 5-sample grid:
`0, 1, 1, 1, 0`. -/
def exSym : Fin 5 → ℚ := fun i => if 1 ≤ i.val ∧ i.val ≤ 3 then 1 else 0

/-- A field antisymmetric (odd) about the midpoint of a 5-sample grid:
`0, 1, 0, -1, 0`. -/
def exAnti : Fin 5 → ℚ :=
  fun i => if i.val = 1 then 1 else if i.val = 3 then -1 else 0

/-- C8 counterexample: the stepper built on 5 samples (3 interior, odd,
centered) from the even-symmetric zero-velocity field `0,1,1,1,0` with
`dt=1, dx=2, c=1` (`alpha2 = 1/4`) moves the midpoint sample from `1` to
`15/16` after one full advance step — an even-symmetric initial
condition does not pin the midpoint. -/
theorem midpoint_c8_counterexample :
    (∀ i : Fin 5, exSym ⟨5 - 1 - i.val, by omega⟩ = exSym i)
  ∧ (∀ i : Fin 5, (fun _ : Fin 5 => (0:ℚ)) i = 0)
  ∧ wave1d_init 5 exSym (fun _ => 0) 1 2 1
      = some (wave1d_mk 5 exSym (fun _ => 0) 1 2 1)
  ∧ exSym ⟨2, by norm_num⟩ = 1
  ∧ (wave1d_substep (wave1d_mk 5 exSym (fun _ => 0) 1 2 1)).u_ti
      ⟨2, by norm_num⟩ = 15/16
  ∧ (wave1d_substep (wave1d_mk 5 exSym (fun _ => 0) 1 2 1)).u_ti
      ⟨2, by norm_num⟩ ≠ exSym ⟨2, by norm_num⟩ := by
  have hval : (wave1d_substep (wave1d_mk 5 exSym (fun _ => 0) 1 2 1)).u_ti
      ⟨2, by norm_num⟩ = 15/16 := by
    norm_num [wave1d_substep_u_ti, wave1d_mk_u_ti, wave1d_mk_u_tim1,
      wave1d_mk_alpha2, bound_standing, roll_p1, roll_m1, exSym, alpha2_1d]
  refine ⟨?_, fun _ => rfl, wave1d_init_eq_some _ _ (by norm_num [alpha2_1d]),
    by norm_num [exSym], hval, ?_⟩
  · intro i
    fin_cases i <;> norm_num [exSym]
  · rw [hval]
    norm_num [exSym]

/-- C8 (amended): for a 1D stepper constructed with zero initial velocity
from an initial-position field that is *antisymmetric* about the domain
midpoint (so the midpoint sample is a node), on a grid with an odd
number of interior samples centered on the midpoint, the field value at
the midpoint sample after one full advance step equals exactly its
initial value. -/
theorem midpoint_antisym_c8 (n mI : ℕ) (u0 ut0 : Fin n → ℚ) (dt dx c : ℚ)
    (s : Wave1DState n) (hn : n = 2 * mI + 1) (hm : 2 ≤ mI)
    (hsym : ∀ i j : Fin n, j.val = n - 1 - i.val → u0 j = -u0 i)
    (hvel : ∀ i, ut0 i = 0)
    (hinit : wave1d_init n u0 ut0 dt dx c = some s) :
    (wave1d_substep s).u_ti ⟨mI, by omega⟩ = u0 ⟨mI, by omega⟩ := by
  rw [wave1d_init_some hinit]
  have hp_sym : ∀ i j : Fin n, j.val = n - 1 - i.val →
      bound_standing u0 j = - bound_standing u0 i := by
    intro i j hj
    have hilt := i.isLt
    have hjlt := j.isLt
    unfold bound_standing
    by_cases hb : i.val = 0 ∨ i.val = n - 1
    · rw [if_pos hb, if_pos (by omega)]
      norm_num
    · rw [if_neg hb, if_neg (by omega)]
      exact hsym i j hj
  have hsub := wave1d_substep_u_ti_interior (wave1d_mk n u0 ut0 dt dx c)
    ⟨mI, by omega⟩ (show 0 < mI by omega) (show mI < n - 1 by omega)
    ⟨mI - 1, by omega⟩ ⟨mI + 1, by omega⟩ rfl rfl
  have hcm := wave1d_mk_u_ti_interior u0 ut0 dt dx c
    ⟨mI, by omega⟩ (show 0 < mI by omega) (show mI < n - 1 by omega)
    ⟨mI - 1, by omega⟩ ⟨mI + 1, by omega⟩ rfl rfl
  have hcm1 := wave1d_mk_u_ti_interior u0 ut0 dt dx c
    ⟨mI - 1, by omega⟩ (show 0 < mI - 1 by omega) (show mI - 1 < n - 1 by omega)
    ⟨mI - 2, by omega⟩ ⟨mI, by omega⟩ rfl (show mI = mI - 1 + 1 by omega)
  have hcp1 := wave1d_mk_u_ti_interior u0 ut0 dt dx c
    ⟨mI + 1, by omega⟩ (show 0 < mI + 1 by omega) (show mI + 1 < n - 1 by omega)
    ⟨mI, by omega⟩ ⟨mI + 2, by omega⟩ (show mI = mI + 1 - 1 by omega) rfl
  have hp0 : bound_standing u0 ⟨mI, by omega⟩ = 0 := by
    have h := hp_sym ⟨mI, by omega⟩ ⟨mI, by omega⟩ (show mI = n - 1 - mI by omega)
    linarith
  have hpp1 : bound_standing u0 ⟨mI + 1, by omega⟩
      = - bound_standing u0 ⟨mI - 1, by omega⟩ :=
    hp_sym ⟨mI - 1, by omega⟩ ⟨mI + 1, by omega⟩
      (show mI + 1 = n - 1 - (mI - 1) by omega)
  have hpp2 : bound_standing u0 ⟨mI + 2, by omega⟩
      = - bound_standing u0 ⟨mI - 2, by omega⟩ :=
    hp_sym ⟨mI - 2, by omega⟩ ⟨mI + 2, by omega⟩
      (show mI + 2 = n - 1 - (mI - 2) by omega)
  have hu0 : u0 ⟨mI, by omega⟩ = 0 :=
    (bound_standing_interior u0 ⟨mI, by omega⟩
      (show ¬(mI = 0 ∨ mI = n - 1) by omega)).symm.trans hp0
  rw [hsub, wave1d_mk_u_tim1, wave1d_mk_alpha2, hcm, hcm1, hcp1]
  simp only [hvel]
  rw [hp0, hpp1, hpp2, hu0]
  ring

/-- Witness for C8 (amended): the antisymmetric field `0,1,0,-1,0` with
zero velocity, `dt=1, dx=2, c=1`; its midpoint sample (value `0`) is
unchanged by one advance step. -/
theorem midpoint_antisym_c8_witness :
    (5 = 2 * 2 + 1) ∧ (2 ≤ 2)
  ∧ (∀ i j : Fin 5, j.val = 5 - 1 - i.val → exAnti j = -exAnti i)
  ∧ wave1d_init 5 exAnti (fun _ => 0) 1 2 1
      = some (wave1d_mk 5 exAnti (fun _ => 0) 1 2 1)
  ∧ (wave1d_substep (wave1d_mk 5 exAnti (fun _ => 0) 1 2 1)).u_ti
      ⟨2, by norm_num⟩ = exAnti ⟨2, by norm_num⟩ := by
  have hsym : ∀ i j : Fin 5, j.val = 5 - 1 - i.val → exAnti j = -exAnti i := by
    intro i j hj
    fin_cases i <;> fin_cases j <;> simp_all [exAnti]
  have hinit : wave1d_init 5 exAnti (fun _ => 0) 1 2 1
      = some (wave1d_mk 5 exAnti (fun _ => 0) 1 2 1) :=
    wave1d_init_eq_some _ _ (by norm_num [alpha2_1d])
  exact ⟨rfl, le_refl 2, hsym, hinit,
    midpoint_antisym_c8 5 2 exAnti (fun _ => 0) 1 2 1 _ rfl (le_refl 2)
      hsym (fun _ => rfl) hinit⟩
